import Mathlib

/-!
Verification of the `openapi-to-mcpserver` repository: a shallow embedding of
its OpenAPI-operation-to-tool adapter (`adapter.ts`) and its request executor
(`apiCaller.ts`), together with theorems checking the natural-language
specification's claims against this embedding.

JavaScript dynamic values are modelled by the inductive `Value` below (with
explicit `undefined`, `null`, BigInt and Node `Buffer` byte-array variants so
that truthiness, `JSON.stringify` failure and binary payloads are expressible).
Strings are manipulated through their underlying character lists so that every
definition is executable and kernel-reducible.
-/

namespace OpenapiToMcp

/-! ## Generic string and association-list helpers (JS object / string semantics) -/

/-- Holds when the list `p` is an initial run of `l`
(JS `String.prototype.startsWith` on character lists). -/
def leadsList : List Char → List Char → Bool
  | [], _ => true
  | _ :: _, [] => false
  | a :: as, b :: bs => a == b && leadsList as bs

/-- Holds when `p` occurs contiguously inside `l`
(JS `String.prototype.includes` on character lists). -/
def hasSubList : List Char → List Char → Bool
  | [], p => leadsList p []
  | c :: rest, p => leadsList p (c :: rest) || hasSubList rest p

/-- JS `s.includes(pat)`. -/
def strContains (s pat : String) : Bool := hasSubList s.data pat.data

/-- JS `s.startsWith(pat)`. -/
def strStarts (s pat : String) : Bool := leadsList pat.data s.data

/-- JS `s.endsWith(pat)`. -/
def strEnds (s pat : String) : Bool := leadsList pat.data.reverse s.data.reverse

/-- Drop the final character (used for `url.slice(0, -1)`). -/
def strDropLast (s : String) : String := ⟨s.data.dropLast⟩

/-- Map a function over the characters of a string. -/
def strMap (f : Char → Char) (s : String) : String := ⟨s.data.map f⟩

/-- JS `String.prototype.toLowerCase` restricted to ASCII (all inputs here are ASCII). -/
def strLower (s : String) : String := strMap Char.toLower s

/-- JS `String.prototype.toUpperCase` restricted to ASCII. -/
def strUpper (s : String) : String := strMap Char.toUpper s

/-- Split a character list at `'_'` (JS `s.split('_')`, including empty pieces). -/
def splitUnderscore : List Char → List (List Char)
  | [] => [[]]
  | '_' :: rest => [] :: splitUnderscore rest
  | c :: rest =>
    match splitUnderscore rest with
    | [] => [[c]]
    | g :: gs => (c :: g) :: gs

/-- Join strings with a separator (JS `Array.prototype.join`). -/
def joinSep (sep : String) : List String → String
  | [] => ""
  | [x] => x
  | x :: xs => x ++ sep ++ joinSep sep xs

/-- Replace the first occurrence of `pat` in `l` by `rep`
(JS `String.prototype.replace` with a string pattern). -/
def replaceFirstList (pat rep : List Char) : List Char → List Char
  | [] => if leadsList pat [] then rep else []
  | c :: rest =>
    if leadsList pat (c :: rest) then rep ++ (c :: rest).drop pat.length
    else c :: replaceFirstList pat rep rest

/-- JS `s.replace(pat, rep)` (first occurrence only). -/
def strReplaceFirst (s pat rep : String) : String :=
  ⟨replaceFirstList pat.data rep.data s.data⟩

/-- JS object property read: first binding of the key, if any. -/
def getKey {α : Type} : List (String × α) → String → Option α
  | [], _ => none
  | (k, v) :: rest, k' => if k == k' then some v else getKey rest k'

/-- JS object property write / `Map.prototype.set`: update the value in place when
the key exists (keeping its position), otherwise append the binding. -/
def setKey {α : Type} : List (String × α) → String → α → List (String × α)
  | [], k, v => [(k, v)]
  | (k', v') :: rest, k, v =>
    if k' == k then (k, v) :: rest else (k', v') :: setKey rest k v

/-- Decimal digit character. -/
def digitChar : Nat → Char
  | 0 => '0' | 1 => '1' | 2 => '2' | 3 => '3' | 4 => '4'
  | 5 => '5' | 6 => '6' | 7 => '7' | 8 => '8' | _ => '9'

/-- Decimal rendering of a natural number (fuel-based so it is kernel-reducible). -/
def natToStrCore : Nat → Nat → List Char
  | _, 0 => []
  | n, fuel + 1 =>
    if n < 10 then [digitChar n]
    else natToStrCore (n / 10) fuel ++ [digitChar (n % 10)]

/-- JS decimal rendering of a natural number. -/
def natToStr (n : Nat) : String := ⟨natToStrCore n (n + 1)⟩

/-- JS decimal rendering of an integer. -/
def intToStr (n : Int) : String :=
  if n < 0 then "-" ++ natToStr n.natAbs else natToStr n.natAbs

/-! ## JavaScript dynamic values -/

mutual
/-- A JavaScript runtime value, as visible to this program: JSON values plus
`undefined`, BigInt (on which `JSON.stringify` throws) and Node `Buffer`s. -/
inductive Value where
  | vNull
  | vUndefined
  | vBool (b : Bool)
  | vNum (n : Int)
  | vBigInt (n : Int)
  | vStr (s : String)
  | vBytes (bs : List Nat)
  | vArr (xs : ValueList)
  | vObj (fs : FieldList)

/-- A list of JS values (elements of a JS array). -/
inductive ValueList where
  | nil
  | cons (v : Value) (rest : ValueList)

/-- Ordered fields of a JS object. -/
inductive FieldList where
  | nil
  | cons (name : String) (v : Value) (rest : FieldList)
end

deriving instance DecidableEq for Value

/-- JS truthiness. -/
def truthy : Value → Bool
  | .vNull => false
  | .vUndefined => false
  | .vBool b => b
  | .vNum n => n != 0
  | .vBigInt n => n != 0
  | .vStr s => s != ""
  | .vBytes _ => true
  | .vArr _ => true
  | .vObj _ => true

/-- Property read on a JS object's field list (`undefined` when absent). -/
def FieldList.get : FieldList → String → Value
  | .nil, _ => .vUndefined
  | .cons k v rest, k' => if k == k' then v else get rest k'

mutual
/-- JS `String(value)` string coercion (Buffer rendering approximated bytewise;
only ASCII byte content reaches it in this program). -/
def jsString : Value → String
  | .vNull => "null"
  | .vUndefined => "undefined"
  | .vBool b => if b then "true" else "false"
  | .vNum n => intToStr n
  | .vBigInt n => intToStr n
  | .vStr s => s
  | .vBytes bs => ⟨bs.map Char.ofNat⟩
  | .vArr xs => joinSep "," (jsStringElems xs)
  | .vObj _ => "[object Object]"

/-- Array elements under `String(...)` coercion (`null`/`undefined` become empty). -/
def jsStringElems : ValueList → List String
  | .nil => []
  | .cons v rest =>
    (match v with
     | .vNull => ""
     | .vUndefined => ""
     | _ => jsString v) :: jsStringElems rest
end

/-- JSON string escaping for one character. -/
def jsonEscapeChar (c : Char) : List Char :=
  if c = '"' then ['\\', '"']
  else if c = '\\' then ['\\', '\\']
  else if c = '\n' then ['\\', 'n']
  else if c = '\t' then ['\\', 't']
  else if c = '\r' then ['\\', 'r']
  else if c.toNat < 32 then
    ['\\', 'u', '0', '0', digitChar (c.toNat / 16), digitChar (c.toNat % 16)]
  else [c]

/-- JSON quoting of a string literal. -/
def jsonQuote (s : String) : String :=
  ⟨'"' :: (s.data.flatMap jsonEscapeChar) ++ ['"']⟩

mutual
/-- Model of `JSON.stringify`: `none` models a thrown `TypeError` (BigInt values).
A top-level `undefined` also maps to `none`; in this program stringification is
only reached under a truthiness guard, so that case is unreachable. -/
def stringifyJson : Value → Option String
  | .vNull => some "null"
  | .vUndefined => none
  | .vBool b => some (if b then "true" else "false")
  | .vNum n => some (intToStr n)
  | .vBigInt _ => none
  | .vStr s => some (jsonQuote s)
  | .vBytes bs =>
    some ("\x7b\"type\":\"Buffer\",\"data\":[" ++ joinSep "," (bs.map natToStr) ++ "]\x7d")
  | .vArr xs => (stringifyElems xs).map fun ps => "[" ++ joinSep "," ps ++ "]"
  | .vObj fs => (stringifyFields fs).map fun ps => "\x7b" ++ joinSep "," ps ++ "\x7d"

/-- Array elements under `JSON.stringify` (`undefined` renders as `null`). -/
def stringifyElems : ValueList → Option (List String)
  | .nil => some []
  | .cons v rest =>
    let sv := match v with
      | .vUndefined => some "null"
      | w => stringifyJson w
    match sv, stringifyElems rest with
    | some a, some b => some (a :: b)
    | _, _ => none

/-- Object fields under `JSON.stringify` (`undefined`-valued keys are dropped). -/
def stringifyFields : FieldList → Option (List String)
  | .nil => some []
  | .cons k v rest =>
    match v with
    | .vUndefined => stringifyFields rest
    | w =>
      match stringifyJson w, stringifyFields rest with
      | some sv, some srest => some ((jsonQuote k ++ ":" ++ sv) :: srest)
      | _, _ => none
end

/-! ## Base64 (Node `Buffer` semantics) -/

/-- Value of one base64 character; accepts both the standard and the URL-safe
alphabet, `none` for every other character (which Node's decoder skips). -/
def b64Val (c : Char) : Option Nat :=
  if 'A' ≤ c ∧ c ≤ 'Z' then some (c.toNat - 65)
  else if 'a' ≤ c ∧ c ≤ 'z' then some (c.toNat - 97 + 26)
  else if '0' ≤ c ∧ c ≤ '9' then some (c.toNat - 48 + 52)
  else if c = '+' ∨ c = '-' then some 62
  else if c = '/' ∨ c = '_' then some 63
  else none

/-- Decode a run of 6-bit values into bytes (4 → 3, 3 → 2, 2 → 1, 1 → 0). -/
def b64DecodeCore : List Nat → List Nat
  | a :: b :: c :: d :: rest =>
    (a * 4 + b / 16) :: ((b % 16) * 16 + c / 4) :: ((c % 4) * 64 + d) :: b64DecodeCore rest
  | [a, b] => [a * 4 + b / 16]
  | [a, b, c] => [a * 4 + b / 16, (b % 16) * 16 + c / 4]
  | _ => []

/-- Modelled from Node: `Buffer.from(s, 'base64')`. Node's decoder is lenient —
it skips every character outside the base64 alphabets (including `=` padding)
and never throws, so the `try`/`catch` around it in `apiCaller.ts` can never
take the `catch` branch. -/
def bufferFromBase64 (s : String) : List Nat :=
  b64DecodeCore (s.data.filterMap b64Val)

/-- Standard base64 alphabet, indexed by a 6-bit value. -/
def b64Chr (n : Nat) : Char :=
  (("ABCDEFGHIJKLMNOPQRSTUVWXYZabcdefghijklmnopqrstuvwxyz0123456789+/").data).getD n 'A'

/-- Encode bytes as base64 characters with padding. -/
def b64EncodeCore : List Nat → List Char
  | a :: b :: c :: rest =>
    b64Chr (a / 4) :: b64Chr ((a % 4) * 16 + b / 16) ::
    b64Chr ((b % 16) * 4 + c / 64) :: b64Chr (c % 64) :: b64EncodeCore rest
  | [a, b] => [b64Chr (a / 4), b64Chr ((a % 4) * 16 + b / 16), b64Chr ((b % 16) * 4), '=']
  | [a] => [b64Chr (a / 4), b64Chr ((a % 4) * 16), '=', '=']
  | [] => []

/-- Node `buf.toString('base64')`. -/
def base64Encode (bs : List Nat) : String := ⟨b64EncodeCore bs⟩

theorem bufferFromBase64_valid : bufferFromBase64 "aGk=" = [104, 105] := by decide

theorem bufferFromBase64_invalid : bufferFromBase64 "!!!" = [] := by decide

theorem base64Encode_bytes : base64Encode [1, 2, 3] = "AQID" := by decide

/-! ## `encodeURIComponent` -/

/-- Characters `encodeURIComponent` leaves unescaped. -/
def uriUnreserved (c : Char) : Bool :=
  ('A' ≤ c ∧ c ≤ 'Z') || ('a' ≤ c ∧ c ≤ 'z') || ('0' ≤ c ∧ c ≤ '9') ||
  c = '-' || c = '_' || c = '.' || c = '!' || c = '~' || c = '*' ||
  c = '\'' || c = '(' || c = ')'

/-- Uppercase hexadecimal digit. -/
def hexChr (n : Nat) : Char :=
  (("0123456789ABCDEF").data).getD n '0'

/-- UTF-8 bytes of a code point. -/
def utf8Bytes (n : Nat) : List Nat :=
  if n < 0x80 then [n]
  else if n < 0x800 then [0xC0 + n / 64, 0x80 + n % 64]
  else if n < 0x10000 then [0xE0 + n / 4096, 0x80 + (n / 64) % 64, 0x80 + n % 64]
  else [0xF0 + n / 262144, 0x80 + (n / 4096) % 64, 0x80 + (n / 64) % 64, 0x80 + n % 64]

/-- JS `encodeURIComponent`. -/
def encodeURIComponent (s : String) : String :=
  ⟨s.data.flatMap fun c =>
    if uriUnreserved c then [c]
    else (utf8Bytes c.toNat).flatMap fun b => ['%', hexChr (b / 16), hexChr (b % 16)]⟩

theorem encodeURIComponent_sample : encodeURIComponent "a b/c" = "a%20b%2Fc" := by decide

/-! ## OpenAPI schema nodes (dereferenced document shapes) -/

mutual
/-- A (dereferenced) OpenAPI schema object, with exactly the fields
`adapter.ts` reads: `type`, `format`, `enum`, `items`, `properties`,
`additionalProperties` and the `x-body-name` extension. -/
inductive Schema where
  | mk (type : Option String) (format : Option String) (enumVals : Option (List Value))
       (items : ItemsField) (properties : PropsField)
       (addProps : AddProps) (xBodyName : Option String)

/-- The `items` field: absent, an unresolved `$ref`, or a schema. -/
inductive ItemsField where
  | absent
  | ref (path : String)
  | sch (s : Schema)

/-- The `properties` field: absent, or a (possibly empty) property list. -/
inductive PropsField where
  | absent
  | present (props : PropList)

/-- A schema position that may instead hold an unresolved `$ref` object. -/
inductive SchemaOrRef where
  | ref (path : String)
  | sch (s : Schema)

/-- Ordered `properties` entries of a schema object. -/
inductive PropList where
  | nil
  | cons (name : String) (v : SchemaOrRef) (rest : PropList)

/-- The `additionalProperties` field: absent, boolean, `$ref`, or a schema. -/
inductive AddProps where
  | absent
  | bool (b : Bool)
  | ref (path : String)
  | sch (s : Schema)
end

deriving instance DecidableEq for Schema
deriving instance DecidableEq for SchemaOrRef

/-- The `type` field of a schema. -/
def Schema.type : Schema → Option String
  | .mk t _ _ _ _ _ _ => t

/-- The `format` field of a schema. -/
def Schema.format : Schema → Option String
  | .mk _ f _ _ _ _ _ => f

/-- The `x-body-name` extension field of a schema. -/
def Schema.xBodyName : Schema → Option String
  | .mk _ _ _ _ _ _ x => x

/-! ## Zod type descriptors

`openApiTypeToZod` in `adapter.ts` builds Zod validators; they are modelled as
an inductive syntax of the Zod constructor calls the adapter performs. -/

mutual
/-- The Zod validators `adapter.ts` can construct. -/
inductive ZodType where
  | zAny
  | zString
  | zStringDatetime
  | zStringDate
  | zStringBase64
  | zEnum (vals : List Value)
  | zNumberInt
  | zNumber
  | zBoolean
  | zArray (elem : ZodType)
  | zObject (shape : ZodShapeL)
  | zObjectCatchall (shape : ZodShapeL) (extra : ZodType)
  | zRecordStringAny
  | zOptional (t : ZodType)
  | zDescribe (t : ZodType) (d : String)

/-- Ordered (property name, validator) pairs of a `z.object` shape. -/
inductive ZodShapeL where
  | nil
  | cons (name : String) (t : ZodType) (rest : ZodShapeL)
end

deriving instance DecidableEq for ZodType

mutual
/-- The function `openApiTypeToZod` from `adapter.ts`, on a present schema. The source takes
an optional schema and recurses only with present ones; the absent case is the
wrapper `openApiTypeToZod` below. -/
def schemaToZod : Schema → ZodType
  | .mk type format enumVals items properties addProps _ =>
    match type with
    | some "string" =>
      match enumVals with
      | some vs => .zEnum vs
      | none =>
        if format = some "date-time" then .zStringDatetime
        else if format = some "date" then .zStringDate
        else if format = some "byte" then .zStringBase64
        else if format = some "binary" then .zAny
        else .zString
    | some "integer" => .zNumberInt
    | some "number" => .zNumber
    | some "boolean" => .zBoolean
    | some "array" =>
      match items with
      | .ref _ => .zArray .zAny
      | .sch s => .zArray (schemaToZod s)
      | .absent => .zArray .zAny
    | some "object" =>
      match properties with
      | .present props =>
        let shape := propsToShape props
        match addProps with
        | .bool true => .zObjectCatchall shape .zAny
        | .sch s => .zObjectCatchall shape (schemaToZod s)
        | _ => .zObject shape
      | .absent =>
        match addProps with
        | .absent => .zObject .nil
        | .bool false => .zObject .nil
        | _ => .zRecordStringAny
    | _ => .zAny

/-- The property loop of the `object` case (`$ref` properties degrade to `z.any()`). -/
def propsToShape : PropList → ZodShapeL
  | .nil => .nil
  | .cons n (.ref _) rest => .cons n .zAny (propsToShape rest)
  | .cons n (.sch s) rest => .cons n (schemaToZod s) (propsToShape rest)
end

/-- The function `openApiTypeToZod` from `adapter.ts`: absent schemas map to `z.any()`. -/
def openApiTypeToZod : Option Schema → ZodType
  | none => .zAny
  | some s => schemaToZod s

/-! ## JS option-coercion helpers -/

/-- Truthiness of an optional string (`undefined` and `""` are falsy). -/
def truthyOptStr : Option String → Bool
  | none => false
  | some s => s != ""

/-- Truthiness of an optional boolean. -/
def truthyOptBool : Option Bool → Bool
  | none => false
  | some b => b

/-- JS `o || dflt` on an optional string. -/
def jsOrD (o : Option String) (dflt : String) : String :=
  match o with
  | some s => if s != "" then s else dflt
  | none => dflt

/-- JS `a || b` on two optional strings (used for `summary || description`). -/
def jsOrOpt (a b : Option String) : Option String :=
  if truthyOptStr a then a else b

/-! ## The operation adapter (`adapter.ts`) -/

/-- A tool parameter record (`MCPParameter` in `types.ts`). -/
structure MCPParameter where
  name : String
  description : Option String
  type : String
  required : Bool
  schema : Option Schema
  _in : Option String
deriving DecidableEq

/-- A dereferenced OpenAPI parameter object, with the fields `adapter.ts` reads. -/
structure ParameterObject where
  name : String
  location : String
  required : Option Bool
  description : Option String
  schema : Option Schema
deriving DecidableEq

/-- A parameter-list position that may hold an unresolved `$ref`. -/
inductive ParamOrRef where
  | ref (path : String)
  | param (p : ParameterObject)
deriving DecidableEq

/-- A dereferenced OpenAPI request-body object; `content` maps a media type to
its (optional) schema. -/
structure RequestBodyObject where
  required : Option Bool
  description : Option String
  content : List (String × Option SchemaOrRef)
deriving DecidableEq

/-- A request-body position that may hold an unresolved `$ref`. -/
inductive RequestBodyOrRef where
  | ref (path : String)
  | body (b : RequestBodyObject)
deriving DecidableEq

/-- A response object (or `$ref`); only its `content` keys are read. -/
inductive ResponseOrRef where
  | ref (path : String)
  | resp (content : Option (List (String × Option SchemaOrRef)))
deriving DecidableEq

/-- A dereferenced OpenAPI operation object, with the fields `adapter.ts` reads. -/
structure OperationObject where
  operationId : Option String
  summary : Option String
  description : Option String
  parameters : Option (List ParamOrRef)
  requestBody : Option RequestBodyOrRef
  responses : Option (List (String × ResponseOrRef))
deriving DecidableEq

/-- A path item: shared parameters plus its method-keyed entries, in document
order (non-verb keys are filtered out by the adapter loop; `none` models a
nullish entry, skipped by `if (!operation) continue`). -/
structure PathItem where
  parameters : Option (List ParamOrRef)
  entries : List (String × Option OperationObject)

/-- A parsed, dereferenced OpenAPI document, as the adapter consumes it. -/
structure OpenAPIDocument where
  paths : Option (List (String × PathItem))

/-- The list `Object.values(OpenAPIV3.HttpMethods)`. -/
def httpMethodsList : List String :=
  ["get", "put", "post", "delete", "options", "head", "patch", "trace"]

/-- Sanitization for `operationId`s: the regex `[^a-zA-Z0-9_]` → `_`. -/
def sanitizeIdChar (c : Char) : Char :=
  if ('A' ≤ c ∧ c ≤ 'Z') || ('a' ≤ c ∧ c ≤ 'z') || ('0' ≤ c ∧ c ≤ '9') || c = '_'
  then c else '_'

/-- Sanitization for lower-cased paths: the regex `[^a-z0-9_]` → `_`. -/
def sanitizePathChar (c : Char) : Char :=
  if ('a' ≤ c ∧ c ≤ 'z') || ('0' ≤ c ∧ c ≤ '9') || c = '_' then c else '_'

/-- The non-`operationId` branch of `generateFunctionName`:
`path.toLowerCase().replace(/[^a-z0-9_]/g, '_').split('_').filter(p => p)`. -/
def pathPartsOf (path : String) : List String :=
  ((splitUnderscore (strMap sanitizePathChar (strLower path)).data).map
    fun g => (⟨g⟩ : String)).filter fun p => p != ""

/-- The function `generateFunctionName` from `adapter.ts` (note `if (operation.operationId)`
is a JS truthiness test, so an empty `operationId` falls through to the
method-and-path branch). -/
def generateFunctionName (method path : String) (op : OperationObject) : String :=
  let pathBased := strLower method ++ "_" ++ joinSep "_" (pathPartsOf path)
  match op.operationId with
  | some oid => if oid != "" then strMap sanitizeIdChar oid else pathBased
  | none => pathBased

/-- The adapter's accumulated `zodShape` (a JS object keyed by parameter name). -/
abbrev Shape := List (String × ZodType)

/-- The Zod validator built for one parameter: base type, `.optional()` when not
required, `.describe(...)` when a description is present. -/
def paramZod (p : ParameterObject) : ZodType :=
  let zt := openApiTypeToZod p.schema
  let zt := if truthyOptBool p.required then zt else .zOptional zt
  match p.description with
  | some d => if d != "" then .zDescribe zt d else zt
  | none => zt

/-- The `MCPParameter` pushed for one non-`$ref` OpenAPI parameter. -/
def mkMCP (p : ParameterObject) : MCPParameter :=
  { name := p.name
    description := p.description
    type :=
      match p.schema with
      | some s => (match s.type with
        | some t => if t != "" then t else "any"
        | none => "any")
      | none => "any"
    required := p.required.getD false
    schema := p.schema
    _in := some p.location }

/-- The `forEach` loop of `extractAndBuildZodShape`: `$ref` entries are skipped,
each parameter writes its validator into the shape and pushes an `MCPParameter`. -/
def extractLoop : List ParamOrRef → Shape → List MCPParameter × Shape
  | [], shape => ([], shape)
  | .ref _ :: rest, shape => extractLoop rest shape
  | .param p :: rest, shape =>
    let shape1 := setKey shape p.name (paramZod p)
    let (ms, shapeF) := extractLoop rest shape1
    (mkMCP p :: ms, shapeF)

/-- The function `extractAndBuildZodShape` from `adapter.ts` (state-passing rendering of its
mutation of `zodShape`). -/
def extractAndBuildZodShape (ps : Option (List ParamOrRef)) (shape : Shape) :
    List MCPParameter × Shape :=
  match ps with
  | none => ([], shape)
  | some l => extractLoop l shape

/-- The function `extractRequestBodyAndBuildZodShape` from `adapter.ts`. -/
def extractRequestBodyAndBuildZodShape (rb : Option RequestBodyOrRef) (shape : Shape) :
    List MCPParameter × Shape :=
  match rb with
  | none => ([], shape)
  | some (.ref _) => ([], shape)
  | some (.body b) =>
    let fromJson : Option SchemaOrRef := (getKey b.content "application/json").bind id
    let fromFirst : Option SchemaOrRef :=
      match b.content.head? with
      | some (k, _) => (getKey b.content k).bind id
      | none => none
    let contentSchema : Option SchemaOrRef :=
      match fromJson with
      | some x => some x
      | none => fromFirst
    match contentSchema with
    | none => ([], shape)
    | some (.ref _) => ([], shape)
    | some (.sch s) =>
      let bodyParamName := jsOrD s.xBodyName "requestBody"
      let zt := schemaToZod s
      let zt := if truthyOptBool b.required then zt else .zOptional zt
      let zt := match b.description with
        | some d => if d != "" then .zDescribe zt d else zt
        | none => zt
      ([{ name := bodyParamName
          description := some (jsOrD b.description "The request body.")
          type :=
            match s.type with
            | some t => if t != "" then t else "object"
            | none => "object"
          required := b.required.getD false
          schema := some s
          _in := some "body" }], setKey shape bodyParamName zt)

/-- Insert a run of parameters into the name-keyed `Map` (`Map.prototype.set`
keeps a colliding key's position and replaces its value). -/
def mapSetAll : List (String × MCPParameter) → List MCPParameter → List (String × MCPParameter)
  | m, [] => m
  | m, p :: rest => mapSetAll (setKey m p.name p) rest

/-- The `combinedParamsMap` merge of `adaptOpenAPIToSdkTools`: path-item
parameters, then operation parameters, then the body parameter, later entries
overriding earlier ones of the same name; then `Array.from(map.values())`. -/
def combineParams (a b c : List MCPParameter) : List MCPParameter :=
  (mapSetAll (mapSetAll (mapSetAll [] a) b) c).map Prod.snd

/-- Model of the content-key listing of `operation.requestBody` (an empty list when
the body is absent or an unresolved `$ref`, which has no `content` field). -/
def consumesOf (rb : Option RequestBodyOrRef) : List String :=
  match rb with
  | some (.body b) => b.content.map Prod.fst
  | _ => []

/-- The helper `getResponseContentKeys` from `adaptOpenAPIToSdkTools`. -/
def getResponseContentKeys (responses : Option (List (String × ResponseOrRef)))
    (code : String) : List String :=
  match responses with
  | none => []
  | some rs =>
    match getKey rs code with
    | none => []
    | some (.ref _) => []
    | some (.resp content) => (content.getD []).map Prod.fst

/-- Worker for deduplication keeping first occurrences (`[...new Set(l)]`). -/
def dedupAux : List String → List String → List String
  | [], _ => []
  | x :: rest, seen =>
    if seen.contains x then dedupAux rest seen else x :: dedupAux rest (x :: seen)

/-- Model of `[...new Set(l)]`. -/
def dedupFirst (l : List String) : List String := dedupAux l []

/-- The `produces` computation of `adaptOpenAPIToSdkTools`: content-type keys of
`2xx` responses, falling back to the `default` response, deduplicated. -/
def producesOf (responses : Option (List (String × ResponseOrRef))) : List String :=
  let keys := (responses.getD []).map Prod.fst
  let p := (keys.filter fun c => strStarts c "2").flatMap (getResponseContentKeys responses)
  let p := if p.isEmpty then getResponseContentKeys responses "default" else p
  dedupFirst p

/-- The executable operation descriptor stored on each tool
(`_originalOperation` in `adapter.ts` / `OriginalOperationDetails` in
`apiCaller.ts`). -/
structure OriginalOperation where
  method : String
  path : String
  parameters : List MCPParameter
  consumes : Option (List String)
  produces : Option (List String)
deriving DecidableEq

/-- The structure `SdkToolDefinition` from `adapter.ts`. -/
structure SdkToolDefinition where
  name : String
  description : Option String
  zodShape : Shape
  _originalOperation : OriginalOperation
deriving DecidableEq

/-- The per-operation body of the `adaptOpenAPIToSdkTools` loops. -/
def adaptOperation (method path : String) (pathItemParams : Option (List ParamOrRef))
    (op : OperationObject) : SdkToolDefinition :=
  let functionName := generateFunctionName method path op
  let (paramsFromPath, shape1) := extractAndBuildZodShape pathItemParams []
  let (paramsFromOperation, shape2) := extractAndBuildZodShape op.parameters shape1
  let (paramsFromBody, shape3) := extractRequestBodyAndBuildZodShape op.requestBody shape2
  let internalParams := combineParams paramsFromPath paramsFromOperation paramsFromBody
  let consumes := consumesOf op.requestBody
  let produces := producesOf op.responses
  { name := functionName
    description := jsOrOpt op.summary op.description
    zodShape := shape3
    _originalOperation :=
      { method := strUpper method
        path := path
        parameters := internalParams
        consumes := if consumes.length > 0 then some consumes else none
        produces := if produces.length > 0 then some produces else none } }

/-- The function `adaptOpenAPIToSdkTools` from `adapter.ts`: walk every path and every
HTTP-verb key, producing one tool per operation. -/
def adaptOpenAPIToSdkTools (apiSpec : OpenAPIDocument) : List SdkToolDefinition :=
  match apiSpec.paths with
  | none => []
  | some paths =>
    paths.foldl
      (fun acc pathEntry =>
        let (path, pathItem) := pathEntry
        pathItem.entries.foldl
          (fun acc2 me =>
            let (method, opOpt) := me
            if httpMethodsList.contains method then
              match opOpt with
              | none => acc2
              | some op => acc2 ++ [adaptOperation method path pathItem.parameters op]
            else acc2)
          acc)
      []

/-! ## The request executor (`apiCaller.ts`) -/

/-- The MCP invocation arguments (`mcpArgs : Record<string, any>`). -/
abbrev Args := List (String × Value)

/-- JS property read `mcpArgs[name]`: `undefined` when the key is absent. -/
def jsIndex (args : Args) (name : String) : Value :=
  match getKey args name with
  | some v => v
  | none => .vUndefined

/-- The errors `executeApiCall` can throw. -/
inductive CallError where
  | noBaseUrl
  | missingParameter (name : String)
  | apiCallFailed (detail : String)
deriving DecidableEq

/-- The `message` of the thrown `Error`. -/
def CallError.message : CallError → String
  | .noBaseUrl => "API base URL is not configured. Cannot execute API call."
  | .missingParameter name => "Missing required parameter: " ++ name
  | .apiCallFailed detail => "API call failed. " ++ detail

/-- The mutable request-construction state of `executeApiCall` (headers,
query parameters, request body, URL path). -/
structure ReqState where
  headers : List (String × String)
  queryParams : List (String × Value)
  requestBody : Option Value
  urlPath : String
deriving DecidableEq

/-- The axios request config assembled by `executeApiCall`. -/
structure HttpRequest where
  method : String
  url : String
  headers : List (String × String)
  params : List (String × Value)
  data : Option Value
  responseType : String
deriving DecidableEq

/-- A successful upstream response: `bytes` is the raw body (what axios hands
over in `arraybuffer` mode), `json` the parsed body (what it hands over in
`json` mode). Header keys are axios-normalized to lower case. -/
structure UpstreamResponse where
  status : Nat
  headers : List (String × String)
  bytes : List Nat
  json : Value
deriving DecidableEq

/-- The `error.response` of a failed axios call. -/
structure ErrResponse where
  status : Option Nat
  headers : List (String × String)
  data : Value
deriving DecidableEq

/-- A failed axios call: network errors carry no `response`. -/
structure AxiosError where
  message : String
  response : Option ErrResponse
deriving DecidableEq

/-- The outcome of dispatching one axios request. -/
inductive HttpResult where
  | ok (resp : UpstreamResponse)
  | err (e : AxiosError)

/-- One iteration of the `parameters.forEach` loop of `executeApiCall`:
missing required parameters abort the call; otherwise the value is routed by
its location. A binary-format body value that is a string is decoded with
Node's lenient base64 decoder (which never throws, so the `catch` fallback in
the source is unreachable). -/
def applyParam (args : Args) (s : ReqState) (p : MCPParameter) : Except CallError ReqState :=
  match jsIndex args p.name with
  | .vUndefined =>
    if p.required then .error (.missingParameter p.name) else .ok s
  | value =>
    match p._in with
    | some "path" =>
      let newPath := strReplaceFirst s.urlPath ("\x7b" ++ p.name ++ "\x7d")
        (encodeURIComponent (jsString value))
      .ok { s with urlPath := newPath }
    | some "query" => .ok { s with queryParams := setKey s.queryParams p.name value }
    | some "header" => .ok { s with headers := setKey s.headers p.name (jsString value) }
    | some "body" =>
      let s1 := { s with requestBody := some value }
      if ((p.schema.bind Schema.format) == some "binary") ||
         (((p.schema.bind Schema.type) == some "string") &&
          ((p.schema.bind Schema.format) == some "binary")) then
        let s2 := { s1 with headers := setKey s1.headers "Content-Type" "application/octet-stream" }
        match value with
        | .vStr str => .ok { s2 with requestBody := some (.vBytes (bufferFromBase64 str)) }
        | _ => .ok s2
      else .ok s1
    | _ => .ok s

/-- The whole `parameters.forEach` loop (a thrown error propagates out). -/
def applyParams (args : Args) : ReqState → List MCPParameter → Except CallError ReqState
  | s, [] => .ok s
  | s, p :: rest =>
    match applyParam args s p with
    | .error e => .error e
    | .ok s1 => applyParams args s1 rest

/-- Everything `executeApiCall` does before dispatching the axios request:
default headers, the parameter loop, URL assembly and response-type selection. -/
def buildRequest (apiBaseUrlStr : String) (d : OriginalOperation) (mcpArgs : Args) :
    Except CallError HttpRequest :=
  let headers0 := setKey [] "Accept" (jsOrD (d.produces.bind List.head?) "application/json")
  let headers1 :=
    if (d.parameters.find? fun p => p._in == some "body").isSome then
      setKey headers0 "Content-Type" (jsOrD (d.consumes.bind List.head?) "application/json")
    else headers0
  let st0 : ReqState := { headers := headers1, queryParams := [], requestBody := none, urlPath := d.path }
  match applyParams mcpArgs st0 d.parameters with
  | .error e => .error e
  | .ok st =>
    let baseUrl := if strEnds apiBaseUrlStr "/" then strDropLast apiBaseUrlStr else apiBaseUrlStr
    let targetUrl := baseUrl ++ (if strStarts st.urlPath "/" then st.urlPath else "/" ++ st.urlPath)
    let acceptHeader := (getKey st.headers "Accept").map strLower
    let isJsonExpected :=
      match acceptHeader with
      | none => true
      | some a => strContains a "json" || strContains a "*/*" || a == ""
    .ok { method := d.method
          url := targetUrl
          headers := st.headers
          params := st.queryParams
          data := st.requestBody
          responseType := if isJsonExpected then "json" else "arraybuffer" }

/-- The `catch` block of `executeApiCall`: assemble the failure detail string
from the status, content type and (stringified) response body. -/
def errorDetail (e : AxiosError) : String :=
  let status : Option Nat := e.response.bind ErrResponse.status
  let responseData : Value :=
    match e.response with
    | some r => r.data
    | none => .vUndefined
  let statusStr :=
    match status with
    | some n => if n = 0 then "N/A" else natToStr n
    | none => "N/A"
  let d0 := "Status: " ++ statusStr
  if truthy responseData then
    let ctOpt := e.response.bind fun r => getKey r.headers "content-type"
    match ctOpt with
    | some ct =>
      if ct != "" && !(strContains ct "json") then d0 ++ ", Content-Type: " ++ ct
      else
        match stringifyJson responseData with
        | some str => d0 ++ ", Data: " ++ str
        | none => d0 ++ ", Data: [Could not stringify response data]"
    | none =>
      match stringifyJson responseData with
      | some str => d0 ++ ", Data: " ++ str
      | none => d0 ++ ", Data: [Could not stringify response data]"
  else d0

/-- The success-path result shaping of `executeApiCall`: `arraybuffer` mode
wraps the raw bytes in the `_isBinary` envelope, `json` mode returns the
parsed body as-is. -/
def shapeSuccess (responseType : String) (resp : UpstreamResponse) : Value :=
  if responseType == "arraybuffer" then
    .vObj (.cons "_isBinary" (.vBool true)
      (.cons "contentType"
        (match getKey resp.headers "content-type" with
         | some ct => .vStr ct
         | none => .vUndefined)
        (.cons "data" (.vStr (base64Encode resp.bytes)) .nil)))
  else resp.json

/-- The function `executeApiCall` from `apiCaller.ts`, with the axios dispatch abstracted as
the oracle `http`. -/
def executeApiCall (apiBaseUrl : Option String) (d : OriginalOperation) (mcpArgs : Args)
    (http : HttpRequest → HttpResult) : Except CallError Value :=
  if !truthyOptStr apiBaseUrl then .error .noBaseUrl
  else
    match buildRequest (apiBaseUrl.getD "") d mcpArgs with
    | .error e => .error e
    | .ok req =>
      match http req with
      | .ok resp => .ok (shapeSuccess req.responseType resp)
      | .err e => .error (.apiCallFailed (errorDetail e))

/-! ## Helper lemmas: string containment -/

theorem leadsList_append_self (p t : List Char) : leadsList p (p ++ t) = true := by
  induction p with
  | nil => rfl
  | cons a as ih => simp [leadsList, ih]

theorem hasSubList_of_leads {l p : List Char} (h : leadsList p l = true) :
    hasSubList l p = true := by
  cases l with
  | nil => simpa [hasSubList] using h
  | cons c rest => simp [hasSubList, h]

theorem hasSubList_append_left (s : List Char) {t p : List Char}
    (h : hasSubList t p = true) : hasSubList (s ++ t) p = true := by
  induction s with
  | nil => simpa using h
  | cons c cs ih =>
    simp only [List.cons_append, hasSubList, Bool.or_eq_true]
    exact Or.inr ih

theorem strData_append (s t : String) : (s ++ t).data = s.data ++ t.data := rfl

/-- A string contains any middle piece of itself. -/
theorem strContains_middle (a pat b : String) :
    strContains (a ++ pat ++ b) pat = true := by
  unfold strContains
  rw [strData_append, strData_append, List.append_assoc]
  exact hasSubList_append_left a.data
    (hasSubList_of_leads (leadsList_append_self pat.data b.data))

/-- A string contains its own front piece. -/
theorem strContains_left (a b : String) : strContains (a ++ b) a = true := by
  unfold strContains
  rw [strData_append]
  exact hasSubList_of_leads (leadsList_append_self a.data b.data)

/-- A string contains its own back piece. -/
theorem strContains_right (a b : String) : strContains (a ++ b) b = true := by
  unfold strContains
  rw [strData_append]
  exact hasSubList_append_left a.data
    (hasSubList_of_leads (by simpa using leadsList_append_self b.data []))

/-! ## Helper lemmas: JS object writes -/

theorem getKey_setKey_self {α : Type} (m : List (String × α)) (k : String) (v : α) :
    getKey (setKey m k v) k = some v := by
  induction m with
  | nil => simp [setKey, getKey]
  | cons kv rest ih =>
    by_cases h : kv.1 = k
    · simp [setKey, getKey, h]
    · simp [setKey, getKey, h, ih]

theorem getKey_setKey_other {α : Type} (m : List (String × α)) {k k' : String} (v : α)
    (h : k ≠ k') : getKey (setKey m k v) k' = getKey m k' := by
  induction m with
  | nil => simp [setKey, getKey, h]
  | cons kv rest ih =>
    by_cases hk : kv.1 = k
    · simp [setKey, getKey, hk, h]
    · by_cases hk' : kv.1 = k'
      · simp [setKey, getKey, hk, hk', Ne.symm h]
      · simp [setKey, getKey, hk, hk', ih]

/-! ## Helper lemmas: the parameter loop -/

theorem applyParam_missing (args : Args) (s : ReqState) (p : MCPParameter)
    (hr : p.required = true) (hv : jsIndex args p.name = .vUndefined) :
    applyParam args s p = .error (.missingParameter p.name) := by
  simp [applyParam, hv, hr]

theorem applyParam_ok (args : Args) (s : ReqState) (p : MCPParameter)
    (h : p.required = false ∨ jsIndex args p.name ≠ .vUndefined) :
    ∃ s', applyParam args s p = .ok s' := by
  cases hvv : jsIndex args p.name
  case vUndefined =>
    rcases h with hr | hv
    · exact ⟨s, by simp [applyParam, hvv, hr]⟩
    · exact absurd hvv hv
  all_goals
    simp only [applyParam, hvv]
    repeat' split
    all_goals exact ⟨_, rfl⟩

theorem applyParam_error_elim (args : Args) (s : ReqState) (p : MCPParameter)
    (e : CallError) (h : applyParam args s p = .error e) :
    p.required = true ∧ jsIndex args p.name = .vUndefined ∧ e = .missingParameter p.name := by
  by_cases hr : p.required = true
  · by_cases hv : jsIndex args p.name = .vUndefined
    · refine ⟨hr, hv, ?_⟩
      rw [applyParam_missing args s p hr hv] at h
      exact (Except.error.inj h).symm
    · obtain ⟨s', hs'⟩ := applyParam_ok args s p (Or.inr hv)
      rw [hs'] at h
      cases h
  · obtain ⟨s', hs'⟩ := applyParam_ok args s p (Or.inl (by simpa using hr))
    rw [hs'] at h
    cases h

theorem applyParams_ok (args : Args) :
    ∀ (l : List MCPParameter) (s : ReqState),
      (∀ p ∈ l, p.required = true → jsIndex args p.name ≠ .vUndefined) →
      ∃ s', applyParams args s l = .ok s'
  | [], s, _ => ⟨s, rfl⟩
  | p :: rest, s, h => by
    have hp : p.required = false ∨ jsIndex args p.name ≠ .vUndefined := by
      by_cases hr : p.required = true
      · exact Or.inr (h p (List.mem_cons_self p rest) hr)
      · exact Or.inl (by simpa using hr)
    obtain ⟨s1, hs1⟩ := applyParam_ok args s p hp
    obtain ⟨s', hs'⟩ := applyParams_ok args rest s1
      (fun q hq hrq => h q (List.mem_cons_of_mem p hq) hrq)
    exact ⟨s', by simp [applyParams, hs1, hs']⟩

theorem applyParams_missing (args : Args) :
    ∀ (l : List MCPParameter),
      (∃ p ∈ l, p.required = true ∧ jsIndex args p.name = .vUndefined) →
      ∃ q ∈ l, q.required = true ∧ jsIndex args q.name = .vUndefined ∧
        ∀ s, applyParams args s l = .error (.missingParameter q.name)
  | [], h => by simp at h
  | p :: rest, h => by
    by_cases hp : p.required = true ∧ jsIndex args p.name = .vUndefined
    · refine ⟨p, List.mem_cons_self p rest, hp.1, hp.2, fun s => ?_⟩
      simp [applyParams, applyParam_missing args s p hp.1 hp.2]
    · have hrest : ∃ q ∈ rest, q.required = true ∧ jsIndex args q.name = .vUndefined := by
        obtain ⟨q, hq_mem, hq⟩ := h
        rcases List.mem_cons.mp hq_mem with rfl | hq_rest
        · exact absurd hq hp
        · exact ⟨q, hq_rest, hq⟩
      have hok : p.required = false ∨ jsIndex args p.name ≠ .vUndefined := by
        by_cases hr : p.required = true
        · exact Or.inr fun hv => hp ⟨hr, hv⟩
        · exact Or.inl (by simpa using hr)
      obtain ⟨q, hq_mem, hq1, hq2, hq3⟩ := applyParams_missing args rest hrest
      refine ⟨q, List.mem_cons_of_mem p hq_mem, hq1, hq2, fun s => ?_⟩
      obtain ⟨s1, hs1⟩ := applyParam_ok args s p hok
      simp [applyParams, hs1, hq3]

/-- Claim C5: a required parameter whose name is absent from the invocation
arguments makes `executeApiCall` fail with the error naming a missing required
parameter, before any outbound request: `buildRequest` already fails, and the
result does not depend on the HTTP oracle at all, so no request is dispatched. -/
theorem C5_missing_required_aborts (baseUrl : String) (d : OriginalOperation) (args : Args)
    (hbase : baseUrl ≠ "")
    (h : ∃ p ∈ d.parameters, p.required = true ∧ jsIndex args p.name = .vUndefined) :
    ∃ q ∈ d.parameters, q.required = true ∧ jsIndex args q.name = .vUndefined ∧
      buildRequest baseUrl d args = .error (.missingParameter q.name) ∧
      (∀ http, executeApiCall (some baseUrl) d args http =
        .error (.missingParameter q.name)) ∧
      CallError.message (.missingParameter q.name) =
        "Missing required parameter: " ++ q.name := by
  obtain ⟨q, hq_mem, hq1, hq2, hq3⟩ := applyParams_missing args d.parameters h
  have hbuild : buildRequest baseUrl d args = .error (.missingParameter q.name) := by
    unfold buildRequest
    simp only [hq3]
  refine ⟨q, hq_mem, hq1, hq2, hbuild, ?_, rfl⟩
  intro http
  have ht : truthyOptStr (some baseUrl) = true := by
    simp [truthyOptStr, hbase]
  simp [executeApiCall, ht, hbuild]

/-- Claim C5 witness: a concrete call with a missing required parameter. -/
theorem C5_missing_required_aborts_witness :
    ∃ q ∈ [({ name := "x", description := none, type := "string", required := true,
              schema := none, _in := some "query" } : MCPParameter)],
      q.required = true ∧ jsIndex [] q.name = .vUndefined ∧
      buildRequest "http://h"
        { method := "GET", path := "/p",
          parameters := [{ name := "x", description := none, type := "string",
                           required := true, schema := none, _in := some "query" }],
          consumes := none, produces := none } [] =
        .error (.missingParameter q.name) ∧
      (∀ http, executeApiCall (some "http://h")
        { method := "GET", path := "/p",
          parameters := [{ name := "x", description := none, type := "string",
                           required := true, schema := none, _in := some "query" }],
          consumes := none, produces := none } [] http =
        .error (.missingParameter q.name)) ∧
      CallError.message (.missingParameter q.name) =
        "Missing required parameter: " ++ q.name :=
  C5_missing_required_aborts "http://h"
    { method := "GET", path := "/p",
      parameters := [{ name := "x", description := none, type := "string",
                       required := true, schema := none, _in := some "query" }],
      consumes := none, produces := none } [] (by decide)
    ⟨{ name := "x", description := none, type := "string", required := true,
       schema := none, _in := some "query" },
     List.mem_cons_self _ _, rfl, rfl⟩

/-- Claim C10: the parameter loop of `executeApiCall` raises the
missing-parameter error exactly when the looked-up argument value is
`undefined`; a required parameter supplied as `null` (or any other defined
value) is never reported missing, and `null` is forwarded into the request
according to its location (query value `null`, header string `"null"`, path
substitution `"null"`, request body `null`). -/
theorem C10_null_is_not_missing (args : Args) (s : ReqState) (p : MCPParameter) :
    ((∃ e, applyParam args s p = .error e) ↔
      (p.required = true ∧ jsIndex args p.name = .vUndefined)) ∧
    (jsIndex args p.name = .vNull →
      (p._in = some "query" →
        applyParam args s p =
          .ok { s with queryParams := setKey s.queryParams p.name .vNull }) ∧
      (p._in = some "header" →
        applyParam args s p = .ok { s with headers := setKey s.headers p.name "null" }) ∧
      (p._in = some "path" →
        applyParam args s p =
          .ok { s with urlPath := strReplaceFirst s.urlPath ("\x7b" ++ p.name ++ "\x7d") "null" }) ∧
      (p._in = some "body" → p.schema = none →
        applyParam args s p = .ok { s with requestBody := some .vNull })) := by
  constructor
  · constructor
    · rintro ⟨e, he⟩
      obtain ⟨hr, hv, _⟩ := applyParam_error_elim args s p e he
      exact ⟨hr, hv⟩
    · rintro ⟨hr, hv⟩
      exact ⟨_, applyParam_missing args s p hr hv⟩
  · intro hv
    have hjs : jsString .vNull = "null" := rfl
    have henc : encodeURIComponent (jsString .vNull) = "null" := rfl
    refine ⟨fun hin => ?_, fun hin => ?_, fun hin => ?_, fun hin hsch => ?_⟩
    · simp [applyParam, hv, hin]
    · simp [applyParam, hv, hin, hjs]
    · simp [applyParam, hv, hin, henc]
    · simp [applyParam, hv, hin, hsch]

/-- Claim C10 witness: a required query parameter supplied as `null` is
forwarded, not reported missing. -/
theorem C10_null_is_not_missing_witness :
    applyParam [("x", .vNull)]
      { headers := [], queryParams := [], requestBody := none, urlPath := "/p" }
      { name := "x", description := none, type := "string", required := true,
        schema := none, _in := some "query" } =
      .ok { headers := [], queryParams := [("x", .vNull)], requestBody := none,
            urlPath := "/p" } :=
  ((C10_null_is_not_missing [("x", .vNull)]
      { headers := [], queryParams := [], requestBody := none, urlPath := "/p" }
      { name := "x", description := none, type := "string", required := true,
        schema := none, _in := some "query" }).2 rfl).1 rfl

/-- Claim C1 counterexample: on a successful non-JSON call the envelope's tag
field is `_isBinary`; the claimed key `isBinary` is absent (`undefined`), so
the result is not the claimed shape `{ isBinary: true, ... }`. -/
theorem C1_counterexample :
    executeApiCall (some "http://h")
      { method := "GET", path := "/img", parameters := [], consumes := none,
        produces := some ["image/png"] } []
      (fun _ => .ok { status := 200, headers := [("content-type", "image/png")],
                      bytes := [1, 2, 3], json := .vNull }) =
      .ok (.vObj (.cons "_isBinary" (.vBool true)
        (.cons "contentType" (.vStr "image/png")
          (.cons "data" (.vStr "AQID") .nil)))) ∧
    FieldList.get
      (.cons "_isBinary" (.vBool true)
        (.cons "contentType" (.vStr "image/png")
          (.cons "data" (.vStr "AQID") .nil))) "isBinary" = .vUndefined :=
  ⟨rfl, rfl⟩

/-- Claim C1 (amended): for every executed call whose effective `Accept`
header resolves to a non-JSON, non-wildcard content type (i.e. the built
request's response type is `arraybuffer`) and whose upstream response
succeeds, `executeApiCall` returns exactly the envelope
`{ _isBinary: true, contentType: <response content-type>, data: <base64 of the
exact response bytes> }` — the tag key is `_isBinary`, not `isBinary`. -/
theorem C1_binary_envelope (baseUrl : String) (d : OriginalOperation) (args : Args)
    (http : HttpRequest → HttpResult) (req : HttpRequest) (resp : UpstreamResponse)
    (hbase : baseUrl ≠ "")
    (hreq : buildRequest baseUrl d args = .ok req)
    (hbin : req.responseType = "arraybuffer")
    (hhttp : http req = .ok resp) :
    executeApiCall (some baseUrl) d args http =
      .ok (.vObj (.cons "_isBinary" (.vBool true)
        (.cons "contentType"
          (match getKey resp.headers "content-type" with
           | some ct => Value.vStr ct
           | none => Value.vUndefined)
          (.cons "data" (.vStr (base64Encode resp.bytes)) .nil)))) := by
  have ht : truthyOptStr (some baseUrl) = true := by simp [truthyOptStr, hbase]
  simp [executeApiCall, ht, hreq, hhttp, shapeSuccess, hbin]

/-- Claim C1 witness: a concrete binary-mode call, with every hypothesis of
`C1_binary_envelope` discharged at that input. -/
theorem C1_binary_envelope_witness :
    executeApiCall (some "http://h")
      { method := "GET", path := "/img", parameters := [], consumes := none,
        produces := some ["application/pdf"] } []
      (fun _ => .ok { status := 200, headers := [("content-type", "application/pdf")],
                      bytes := [104, 105], json := .vNull }) =
      .ok (.vObj (.cons "_isBinary" (.vBool true)
        (.cons "contentType" (.vStr "application/pdf")
          (.cons "data" (.vStr "aGk=") .nil)))) :=
  C1_binary_envelope "http://h"
    { method := "GET", path := "/img", parameters := [], consumes := none,
      produces := some ["application/pdf"] } []
    (fun _ => .ok { status := 200, headers := [("content-type", "application/pdf")],
                    bytes := [104, 105], json := .vNull })
    { method := "GET", url := "http://h/img", headers := [("Accept", "application/pdf")],
      params := [], data := none, responseType := "arraybuffer" }
    { status := 200, headers := [("content-type", "application/pdf")],
      bytes := [104, 105], json := .vNull }
    (by decide) rfl rfl rfl

/-- Claim C2 is violated by the code: two operations carrying the same
`operationId` yield two tools with the identical name `dup`; the list is
returned as-is — the collision is neither resolved nor reported, and the names
are not pairwise distinct. -/
theorem C2_duplicate_names_unreported :
    (adaptOpenAPIToSdkTools
      ⟨some [("/a", ⟨none, [("get", some ⟨some "dup", none, none, none, none, none⟩)]⟩),
             ("/b", ⟨none, [("get", some ⟨some "dup", none, none, none, none, none⟩)]⟩)]⟩).map
      SdkToolDefinition.name = ["dup", "dup"] ∧
    ¬ List.Pairwise (fun a b => a ≠ b) (["dup", "dup"] : List String) :=
  ⟨rfl, by simp⟩

/-- Claim C3 counterexample: the name produced for `GET /Pets/{petId}` without
an `operationId` is `get_pets_petid` — the `split('_').filter(p => p)` step
collapses the consecutive and trailing underscores the claim's expected value
`get_pets__petid_` retains. -/
theorem C3_counterexample :
    generateFunctionName "get" "/Pets/{petId}" ⟨none, none, none, none, none, none⟩ =
      "get_pets_petid" ∧ ("get_pets_petid" : String) ≠ "get_pets__petid_" :=
  ⟨rfl, by decide⟩

/-- Claim C3 (amended): for every operation without an `operationId` the tool
name is `lower(method) ++ "_" ++` the non-empty `_`-split components of the
sanitized lower-cased path, joined by `_`; in particular `GET /Pets/{petId}`
yields `get_pets_petid` (not `get_pets__petid_`). -/
theorem C3_no_operationId_name (method path : String) (op : OperationObject)
    (h : op.operationId = none) :
    generateFunctionName method path op =
      strLower method ++ "_" ++ joinSep "_" (pathPartsOf path) ∧
    generateFunctionName "get" "/Pets/{petId}" ⟨none, none, none, none, none, none⟩ =
      "get_pets_petid" :=
  ⟨by simp [generateFunctionName, h], rfl⟩

/-- Claim C3 witness: `C3_no_operationId_name` at a concrete operation. -/
theorem C3_no_operationId_name_witness :
    generateFunctionName "delete" "/users/{id}/pets"
      ⟨none, none, none, none, none, none⟩ =
      strLower "delete" ++ "_" ++ joinSep "_" (pathPartsOf "/users/{id}/pets") ∧
    generateFunctionName "get" "/Pets/{petId}" ⟨none, none, none, none, none, none⟩ =
      "get_pets_petid" :=
  C3_no_operationId_name "delete" "/users/{id}/pets" ⟨none, none, none, none, none, none⟩ rfl

/-- Claim C4 is contradicted by the code's actual behavior: a binary-format
body parameter supplied as the invalid base64 string `"!!!"` is not sent
unchanged — Node's `Buffer.from(value, 'base64')` never throws, it leniently
skips invalid characters, so the catch-with-warning fallback in the source is
dead code and the body becomes the (here empty) decoded buffer. The valid
base64 half of the claim does hold: `"aGk="` is decoded to the bytes `hi` and
`Content-Type` is forced to `application/octet-stream` in both cases. -/
theorem C4_invalid_base64_still_decoded :
    (applyParam [("file", .vStr "aGk=")]
      { headers := [], queryParams := [], requestBody := none, urlPath := "/u" }
      { name := "file", description := none, type := "string", required := true,
        schema := some (.mk (some "string") (some "binary") none .absent .absent .absent none),
        _in := some "body" } =
      .ok { headers := [("Content-Type", "application/octet-stream")], queryParams := [],
            requestBody := some (.vBytes [104, 105]), urlPath := "/u" }) ∧
    (applyParam [("file", .vStr "!!!")]
      { headers := [], queryParams := [], requestBody := none, urlPath := "/u" }
      { name := "file", description := none, type := "string", required := true,
        schema := some (.mk (some "string") (some "binary") none .absent .absent .absent none),
        _in := some "body" } =
      .ok { headers := [("Content-Type", "application/octet-stream")], queryParams := [],
            requestBody := some (.vBytes []), urlPath := "/u" }) ∧
    some (Value.vBytes []) ≠ some (Value.vStr "!!!") :=
  ⟨rfl, rfl, by decide⟩

/-- Claim C8 counterexample: an operation whose `operationId` is the empty
string is treated as having none (`if (operation.operationId)` is a JS
truthiness test), so its name is derived from method and path instead of the
sanitized identifier. -/
theorem C8_counterexample :
    generateFunctionName "get" "/a" ⟨some "", none, none, none, none, none⟩ = "get_a" ∧
    strMap sanitizeIdChar "" = "" ∧ ("get_a" : String) ≠ "" :=
  ⟨rfl, rfl, by decide⟩

/-- Claim C8 (amended): for every operation with a non-empty `operationId`,
the tool name is the `operationId` with every character outside
`[A-Za-z0-9_]` replaced by `_`. -/
theorem C8_operationId_name (method path : String) (op : OperationObject) (oid : String)
    (h : op.operationId = some oid) (hne : oid ≠ "") :
    generateFunctionName method path op = strMap sanitizeIdChar oid := by
  have hb : (oid != "") = true := by simpa using hne
  simp [generateFunctionName, h, hb]

/-- Claim C8 witness: `C8_operationId_name` at a concrete identifier. -/
theorem C8_operationId_name_witness :
    ("get-Pet.byId" : String) ≠ "" ∧
    generateFunctionName "get" "/x" ⟨some "get-Pet.byId", none, none, none, none, none⟩ =
      strMap sanitizeIdChar "get-Pet.byId" :=
  ⟨by decide,
   C8_operationId_name "get" "/x" ⟨some "get-Pet.byId", none, none, none, none, none⟩
     "get-Pet.byId" rfl (by decide)⟩

/-- Claim C7: the type mapper is total — an absent schema, a schema whose
`type` is none of the handled strings (including a missing `type`), and a
string schema with an arbitrary `enum` list (any content, even non-strings or
empty) all map to a well-defined descriptor without error; the absent and
unsupported shapes yield the accept-anything `z.any()` descriptor. -/
theorem C7_type_mapper_total (t f : Option String) (e : Option (List Value))
    (i : ItemsField) (pr : PropsField) (ap : AddProps) (xb : Option String)
    (vs : List Value)
    (ht : t ∉ ([some "string", some "integer", some "number", some "boolean",
                some "array", some "object"] : List (Option String))) :
    openApiTypeToZod none = .zAny ∧
    openApiTypeToZod (some (.mk t f e i pr ap xb)) = .zAny ∧
    openApiTypeToZod (some (.mk (some "string") f (some vs) i pr ap xb)) = .zEnum vs := by
  refine ⟨rfl, ?_, rfl⟩
  cases t with
  | none => rfl
  | some s =>
    show schemaToZod (.mk (some s) f e i pr ap xb) = .zAny
    rw [schemaToZod.eq_def]
    split
    rename_i heq
    injection heq with h1 h2 h3 h4 h5 h6 h7
    subst h1 h2 h3 h4 h5 h6 h7
    split <;> simp_all

/-- Claim C7 witness: an unrecognized `type` and a malformed mixed-content
`enum`, with the hypothesis of `C7_type_mapper_total` discharged. -/
theorem C7_type_mapper_total_witness :
    openApiTypeToZod none = .zAny ∧
    openApiTypeToZod (some (.mk (some "file") none none .absent .absent .absent none)) =
      .zAny ∧
    openApiTypeToZod
      (some (.mk (some "string") none (some [.vNum 1, .vBool true]) .absent .absent
        .absent none)) = .zEnum [.vNum 1, .vBool true] :=
  C7_type_mapper_total (some "file") none none .absent .absent .absent none
    [.vNum 1, .vBool true] (by decide)

/-! ## Helper lemmas: more string containment shapes -/

theorem leadsList_self (p : List Char) : leadsList p p = true := by
  have h := leadsList_append_self p []
  rwa [List.append_nil] at h

theorem strContains_self (s : String) : strContains s s = true :=
  hasSubList_of_leads (leadsList_self s.data)

theorem strContains_left2 (a b c : String) : strContains (a ++ b ++ c) a = true := by
  unfold strContains
  rw [strData_append, strData_append, List.append_assoc]
  exact hasSubList_of_leads (leadsList_append_self a.data (b.data ++ c.data))

/-! ## Helper lemmas: the failure-detail string -/

/-- The status component of the failure detail (`Status: ${status || 'N/A'}`). -/
def eStatusText (e : AxiosError) : String :=
  match e.response.bind ErrResponse.status with
  | some n => if n = 0 then "N/A" else natToStr n
  | none => "N/A"

theorem errorDetail_some_eq (msg : String) (r : ErrResponse) :
    errorDetail ⟨msg, some r⟩ =
      if truthy r.data then
        match getKey r.headers "content-type" with
        | some ct =>
          if ct != "" && !(strContains ct "json")
          then "Status: " ++ eStatusText ⟨msg, some r⟩ ++ ", Content-Type: " ++ ct
          else
            match stringifyJson r.data with
            | some str => "Status: " ++ eStatusText ⟨msg, some r⟩ ++ ", Data: " ++ str
            | none =>
              "Status: " ++ eStatusText ⟨msg, some r⟩ ++
                ", Data: [Could not stringify response data]"
        | none =>
          match stringifyJson r.data with
          | some str => "Status: " ++ eStatusText ⟨msg, some r⟩ ++ ", Data: " ++ str
          | none =>
            "Status: " ++ eStatusText ⟨msg, some r⟩ ++
              ", Data: [Could not stringify response data]"
      else "Status: " ++ eStatusText ⟨msg, some r⟩ := rfl

theorem errorDetail_contains_status (e : AxiosError) :
    strContains (errorDetail e) ("Status: " ++ eStatusText e) = true := by
  obtain ⟨msg, resp⟩ := e
  cases resp with
  | none => exact strContains_self _
  | some r =>
    by_cases htr : truthy r.data = true
    · cases hct : getKey r.headers "content-type" with
      | some ct =>
        by_cases hcond : (ct != "" && !(strContains ct "json")) = true
        · simp only [errorDetail_some_eq, htr, hct, hcond, if_true]
          exact strContains_left2 _ _ _
        · simp only [errorDetail_some_eq, htr, hct, hcond, if_true, if_false,
            Bool.false_eq_true]
          cases hsj : stringifyJson r.data with
          | some str => exact strContains_left2 _ _ _
          | none => exact strContains_left _ _
      | none =>
        simp only [errorDetail_some_eq, htr, hct, if_true]
        cases hsj : stringifyJson r.data with
        | some str => exact strContains_left2 _ _ _
        | none => exact strContains_left _ _
    · simp only [errorDetail_some_eq, htr, if_false, Bool.false_eq_true]
      exact strContains_self _

theorem errorDetail_data_clause (msg : String) (r : ErrResponse)
    (htr : truthy r.data = true) :
    (match getKey r.headers "content-type" with
     | some ct =>
       if ct != "" && !(strContains ct "json")
       then strContains (errorDetail ⟨msg, some r⟩) ct = true
       else
         match stringifyJson r.data with
         | some str => strContains (errorDetail ⟨msg, some r⟩) str = true
         | none =>
           strContains (errorDetail ⟨msg, some r⟩)
             ", Data: [Could not stringify response data]" = true
     | none =>
       match stringifyJson r.data with
       | some str => strContains (errorDetail ⟨msg, some r⟩) str = true
       | none =>
         strContains (errorDetail ⟨msg, some r⟩)
           ", Data: [Could not stringify response data]" = true) := by
  cases hct : getKey r.headers "content-type" with
  | some ct =>
    by_cases hcond : (ct != "" && !(strContains ct "json")) = true
    · simp only [errorDetail_some_eq, htr, hct, hcond, if_true]
      exact strContains_right _ _
    · simp only [errorDetail_some_eq, htr, hct, hcond, if_true, if_false,
        Bool.false_eq_true]
      cases hsj : stringifyJson r.data with
      | some str => simp only [hsj]; exact strContains_right _ _
      | none => simp only [hsj]; exact strContains_right _ _
  | none =>
    simp only [errorDetail_some_eq, htr, hct, if_true]
    cases hsj : stringifyJson r.data with
    | some str => simp only [hsj]; exact strContains_right _ _
    | none => simp only [hsj]; exact strContains_right _ _

/-- Claim C9 counterexample: an upstream 404 whose response body is falsy (the
empty string, a common empty 404 body) and whose content type `text/plain` is
not JSON yields the detail `"Status: 404"` only — the claimed content-type
component (`text/plain`) does not appear, because the source appends the
content-type/data component only under `if (responseData)`. -/
theorem C9_counterexample :
    executeApiCall (some "http://h")
      { method := "GET", path := "/r", parameters := [], consumes := none,
        produces := none } []
      (fun _ => .err ⟨"Request failed with status code 404",
        some ⟨some 404, [("content-type", "text/plain")], .vStr ""⟩⟩) =
      .error (.apiCallFailed "Status: 404") ∧
    strContains "Status: 404" "text/plain" = false :=
  ⟨rfl, by decide⟩

/-- Claim C9 (amended): every failed upstream call makes `executeApiCall` fail
with `API call failed.` wrapping a detail string that contains the status code
(`N/A` when there is none); when the error carries a truthy response body, the
detail additionally contains the upstream content type (when that header is
present, non-empty and does not contain `json`) or else the JSON-stringified
response body, with the fixed could-not-stringify marker when stringification
throws; an upstream 404 in particular yields a detail containing
`Status: 404`. When the response body is falsy (absent, `null`, empty string)
the detail is the status component alone. -/
theorem C9_failure_detail (baseUrl : String) (d : OriginalOperation) (args : Args)
    (http : HttpRequest → HttpResult) (req : HttpRequest) (e : AxiosError)
    (hbase : baseUrl ≠ "")
    (hreq : buildRequest baseUrl d args = .ok req)
    (hhttp : http req = .err e) :
    executeApiCall (some baseUrl) d args http =
      .error (.apiCallFailed (errorDetail e)) ∧
    strContains (errorDetail e) ("Status: " ++ eStatusText e) = true ∧
    (∀ r, e.response = some r → truthy r.data = true →
      (match getKey r.headers "content-type" with
       | some ct =>
         if ct != "" && !(strContains ct "json")
         then strContains (errorDetail e) ct = true
         else
           match stringifyJson r.data with
           | some str => strContains (errorDetail e) str = true
           | none =>
             strContains (errorDetail e)
               ", Data: [Could not stringify response data]" = true
       | none =>
         match stringifyJson r.data with
         | some str => strContains (errorDetail e) str = true
         | none =>
           strContains (errorDetail e)
             ", Data: [Could not stringify response data]" = true)) ∧
    (e.response.bind ErrResponse.status = some 404 →
      strContains (errorDetail e) "Status: 404" = true) := by
  have ht : truthyOptStr (some baseUrl) = true := by simp [truthyOptStr, hbase]
  refine ⟨by simp [executeApiCall, ht, hreq, hhttp], errorDetail_contains_status e,
    ?_, ?_⟩
  · intro r hr htr
    obtain ⟨msg, resp⟩ := e
    cases hr
    exact errorDetail_data_clause msg r htr
  · intro h404
    have h2 := errorDetail_contains_status e
    have h4 : eStatusText e = "404" := by
      unfold eStatusText
      rw [h404]
      decide
    rw [h4] at h2
    exact h2

/-- Claim C9 witness: a concrete upstream 404 with a JSON body, with every
hypothesis of `C9_failure_detail` discharged. -/
theorem C9_failure_detail_witness :
    executeApiCall (some "http://h")
      { method := "GET", path := "/r", parameters := [], consumes := none,
        produces := none } []
      (fun _ => .err ⟨"Request failed with status code 404",
        some ⟨some 404, [("content-type", "application/json")],
          .vObj (.cons "message" (.vStr "not found") .nil)⟩⟩) =
      .error (.apiCallFailed (errorDetail ⟨"Request failed with status code 404",
        some ⟨some 404, [("content-type", "application/json")],
          .vObj (.cons "message" (.vStr "not found") .nil)⟩⟩)) ∧
    strContains (errorDetail ⟨"Request failed with status code 404",
        some ⟨some 404, [("content-type", "application/json")],
          .vObj (.cons "message" (.vStr "not found") .nil)⟩⟩)
      ("Status: " ++ eStatusText ⟨"Request failed with status code 404",
        some ⟨some 404, [("content-type", "application/json")],
          .vObj (.cons "message" (.vStr "not found") .nil)⟩⟩) = true ∧
    (∀ r, (⟨"Request failed with status code 404",
        some ⟨some 404, [("content-type", "application/json")],
          .vObj (.cons "message" (.vStr "not found") .nil)⟩⟩ : AxiosError).response =
        some r → truthy r.data = true →
      (match getKey r.headers "content-type" with
       | some ct =>
         if ct != "" && !(strContains ct "json")
         then strContains (errorDetail ⟨"Request failed with status code 404",
             some ⟨some 404, [("content-type", "application/json")],
               .vObj (.cons "message" (.vStr "not found") .nil)⟩⟩) ct = true
         else
           match stringifyJson r.data with
           | some str => strContains (errorDetail ⟨"Request failed with status code 404",
               some ⟨some 404, [("content-type", "application/json")],
                 .vObj (.cons "message" (.vStr "not found") .nil)⟩⟩) str = true
           | none =>
             strContains (errorDetail ⟨"Request failed with status code 404",
                 some ⟨some 404, [("content-type", "application/json")],
                   .vObj (.cons "message" (.vStr "not found") .nil)⟩⟩)
               ", Data: [Could not stringify response data]" = true
       | none =>
         match stringifyJson r.data with
         | some str => strContains (errorDetail ⟨"Request failed with status code 404",
             some ⟨some 404, [("content-type", "application/json")],
               .vObj (.cons "message" (.vStr "not found") .nil)⟩⟩) str = true
         | none =>
           strContains (errorDetail ⟨"Request failed with status code 404",
               some ⟨some 404, [("content-type", "application/json")],
                 .vObj (.cons "message" (.vStr "not found") .nil)⟩⟩)
             ", Data: [Could not stringify response data]" = true)) ∧
    ((⟨"Request failed with status code 404",
        some ⟨some 404, [("content-type", "application/json")],
          .vObj (.cons "message" (.vStr "not found") .nil)⟩⟩ : AxiosError).response.bind
        ErrResponse.status = some 404 →
      strContains (errorDetail ⟨"Request failed with status code 404",
          some ⟨some 404, [("content-type", "application/json")],
            .vObj (.cons "message" (.vStr "not found") .nil)⟩⟩) "Status: 404" = true) :=
  C9_failure_detail "http://h"
    { method := "GET", path := "/r", parameters := [], consumes := none,
      produces := none } []
    (fun _ => .err ⟨"Request failed with status code 404",
      some ⟨some 404, [("content-type", "application/json")],
        .vObj (.cons "message" (.vStr "not found") .nil)⟩⟩)
    { method := "GET", url := "http://h/r", headers := [("Accept", "application/json")],
      params := [], data := none, responseType := "json" }
    ⟨"Request failed with status code 404",
      some ⟨some 404, [("content-type", "application/json")],
        .vObj (.cons "message" (.vStr "not found") .nil)⟩⟩
    (by decide) rfl rfl

/-! ## Helper machinery: the ordered override-merge (claim C6) -/

/-- Sequentially write a run of bindings into a JS-object/`Map`-style
association list: later writes of the same key override the value in place. -/
def setAllKeys {α : Type} : List (String × α) → List (String × α) → List (String × α)
  | m, [] => m
  | m, (k, v) :: rest => setAllKeys (setKey m k v) rest

theorem setAllKeys_append {α : Type} :
    ∀ (a b m : List (String × α)), setAllKeys m (a ++ b) = setAllKeys (setAllKeys m a) b
  | [], _, _ => rfl
  | (k, v) :: rest, b, m => setAllKeys_append rest b (setKey m k v)

theorem find?_append_eq {α : Type} (p : α → Bool) :
    ∀ a b : List α, (a ++ b).find? p =
      match a.find? p with
      | some x => some x
      | none => b.find? p := by
  intro a b
  induction a with
  | nil => simp
  | cons x rest ih =>
    by_cases hx : p x = true
    · simp [List.find?_cons_of_pos _ hx]
    · simp [List.find?_cons_of_neg _ hx, ih]

theorem getKey_setAllKeys {α : Type} (n : String) :
    ∀ (l m : List (String × α)), getKey (setAllKeys m l) n =
      match l.reverse.find? (fun kv => kv.1 == n) with
      | some kv => some kv.2
      | none => getKey m n
  | [], m => rfl
  | (k, v) :: rest, m => by
    show getKey (setAllKeys (setKey m k v) rest) n = _
    rw [getKey_setAllKeys n rest (setKey m k v), List.reverse_cons, find?_append_eq]
    cases hf : rest.reverse.find? (fun kv => kv.1 == n) with
    | some kv => rfl
    | none =>
      by_cases hk : k = n
      · subst hk
        rw [getKey_setKey_self]
        simp [List.find?]
      · rw [getKey_setKey_other m v hk]
        have hbe : (k == n) = false := by simpa using hk
        simp [List.find?, hbe]

theorem mapSetAll_eq_setAllKeys :
    ∀ (l : List MCPParameter) (m : List (String × MCPParameter)),
      mapSetAll m l = setAllKeys m (l.map fun p => (p.name, p))
  | [], _ => rfl
  | p :: rest, m => mapSetAll_eq_setAllKeys rest (setKey m p.name p)

/-- The `MCPParameter` contributed by one OpenAPI parameter entry (`$ref`
entries contribute nothing). -/
def mcpOf : ParamOrRef → Option MCPParameter
  | .ref _ => none
  | .param p => some (mkMCP p)

/-- The shape entry contributed by one OpenAPI parameter entry. -/
def zodEntryOf : ParamOrRef → Option (String × ZodType)
  | .ref _ => none
  | .param p => some (p.name, paramZod p)

/-- All shape entries contributed by a parameter list, in declaration order. -/
def zodEntriesOf (ps : Option (List ParamOrRef))
    : List (String × ZodType) :=
  (ps.getD []).filterMap zodEntryOf

/-- The body parameters synthesized from a request body. -/
def bodyParamsOf (rb : Option RequestBodyOrRef) : List MCPParameter :=
  (extractRequestBodyAndBuildZodShape rb []).1

/-- The shape entries synthesized from a request body. -/
def bodyEntriesOf (rb : Option RequestBodyOrRef) : List (String × ZodType) :=
  (extractRequestBodyAndBuildZodShape rb []).2

theorem extractLoop_pair :
    ∀ (l : List ParamOrRef) (shape : Shape),
      extractLoop l shape = (l.filterMap mcpOf, setAllKeys shape (l.filterMap zodEntryOf))
  | [], shape => rfl
  | .ref r :: rest, shape => by
    simp [extractLoop, extractLoop_pair rest shape, List.filterMap_cons, mcpOf, zodEntryOf]
  | .param p :: rest, shape => by
    simp [extractLoop, extractLoop_pair rest (setKey shape p.name (paramZod p)),
      List.filterMap_cons, mcpOf, zodEntryOf, setAllKeys]

theorem extract_pair (ps : Option (List ParamOrRef)) (shape : Shape) :
    extractAndBuildZodShape ps shape =
      ((ps.getD []).filterMap mcpOf, setAllKeys shape (zodEntriesOf ps)) := by
  cases ps with
  | none => rfl
  | some l => simp [extractAndBuildZodShape, extractLoop_pair, zodEntriesOf]

theorem extractRB_pair (rb : Option RequestBodyOrRef) (shape : Shape) :
    extractRequestBodyAndBuildZodShape rb shape =
      (bodyParamsOf rb, setAllKeys shape (bodyEntriesOf rb)) := by
  cases rb with
  | none => rfl
  | some rr =>
    cases rr with
    | ref r => rfl
    | body b =>
      simp only [extractRequestBodyAndBuildZodShape, bodyParamsOf, bodyEntriesOf]
      split <;> rfl

theorem mem_setKey {α : Type} :
    ∀ (m : List (String × α)) (k : String) (v : α) (kv : String × α),
      kv ∈ setKey m k v → kv ∈ m ∨ kv = (k, v)
  | [], k, v, kv => by
    intro h
    simp [setKey] at h
    exact Or.inr h
  | (k', v') :: rest, k, v, kv => by
    intro h
    by_cases hk : k' = k
    · have hbe : (k' == k) = true := by simpa using hk
      simp only [setKey, hbe, if_true] at h
      rcases List.mem_cons.mp h with rfl | hrest
      · exact Or.inr rfl
      · exact Or.inl (List.mem_cons_of_mem _ hrest)
    · have hbe : (k' == k) = false := by simpa using hk
      simp only [setKey, hbe, Bool.false_eq_true, if_false] at h
      rcases List.mem_cons.mp h with rfl | hrest
      · exact Or.inl (List.mem_cons_self _ _)
      · rcases mem_setKey rest k v kv hrest with hm | he
        · exact Or.inl (List.mem_cons_of_mem _ hm)
        · exact Or.inr he

theorem setAllKeys_name_inv :
    ∀ (l : List MCPParameter) (m : List (String × MCPParameter)),
      (∀ kv ∈ m, kv.1 = kv.2.name) →
      ∀ kv ∈ setAllKeys m (l.map fun p => (p.name, p)), kv.1 = kv.2.name
  | [], _, hm => hm
  | p :: rest, m, hm => by
    have hm' : ∀ kv ∈ setKey m p.name p, kv.1 = kv.2.name := by
      intro kv hkv
      rcases mem_setKey m p.name p kv hkv with h | h
      · exact hm kv h
      · rw [h]
    exact setAllKeys_name_inv rest (setKey m p.name p) hm'

theorem find?_map_snd (n : String) :
    ∀ (m : List (String × MCPParameter)),
      (∀ kv ∈ m, kv.1 = kv.2.name) →
      ((m.map Prod.snd).find? fun q => q.name == n) = getKey m n
  | [], _ => rfl
  | (k, v) :: rest, hinv => by
    have hk : k = v.name := hinv (k, v) (List.mem_cons_self _ _)
    subst hk
    by_cases hn : v.name = n
    · simp [List.find?_cons_of_pos, getKey, hn]
    · have hrest := find?_map_snd n rest
        (fun kv hkv => hinv kv (List.mem_cons_of_mem _ hkv))
      simp [List.find?_cons_of_neg, getKey, hn, hrest]

theorem find?_pairs (l : List MCPParameter) (n : String) :
    ((l.map fun p => (p.name, p)).reverse.find? fun kv => kv.1 == n) =
      (l.reverse.find? fun q => q.name == n).map fun p => (p.name, p) := by
  rw [← List.map_reverse, List.find?_map]
  rfl

theorem combineParams_eq (a b c : List MCPParameter) :
    combineParams a b c =
      (setAllKeys [] ((a ++ b ++ c).map fun p => (p.name, p))).map Prod.snd := by
  unfold combineParams
  rw [mapSetAll_eq_setAllKeys, mapSetAll_eq_setAllKeys, mapSetAll_eq_setAllKeys,
    List.map_append, List.map_append, setAllKeys_append, setAllKeys_append]

/-- Claim C6: the merged parameter set of a tool is the single ordered
override-merge of path-item-level parameters, then operation-level parameters,
then the synthesized body parameters, a later entry of a name overriding an
earlier one (conjuncts 1 and 2: looking a name up in the produced parameter
list yields the last entry of that name in the concatenation — so an
operation-level declaration beats a path-item-level one); the shared shape
mapping is built by sequential writes in the same order, so a name maps to the
validator of its last declaration (conjuncts 3 and 4). -/
theorem C6_parameter_merge (method path : String) (pip : Option (List ParamOrRef))
    (op : OperationObject) (n : String) :
    ((adaptOperation method path pip op)._originalOperation.parameters =
      (setAllKeys []
        ((((pip.getD []).filterMap mcpOf) ++ (((op.parameters).getD []).filterMap mcpOf) ++
          bodyParamsOf op.requestBody).map fun p => (p.name, p))).map Prod.snd) ∧
    (∀ p, ((((pip.getD []).filterMap mcpOf) ++ (((op.parameters).getD []).filterMap mcpOf) ++
        bodyParamsOf op.requestBody).reverse.find? fun q => q.name == n) = some p →
      ((adaptOperation method path pip op)._originalOperation.parameters.find?
        fun q => q.name == n) = some p) ∧
    ((adaptOperation method path pip op).zodShape =
      setAllKeys [] (zodEntriesOf pip ++ zodEntriesOf op.parameters ++
        bodyEntriesOf op.requestBody)) ∧
    (∀ kv : String × ZodType,
      ((zodEntriesOf pip ++ zodEntriesOf op.parameters ++
        bodyEntriesOf op.requestBody).reverse.find? fun x => x.1 == n) = some kv →
      getKey (adaptOperation method path pip op).zodShape n = some kv.2) := by
  have h1 : (adaptOperation method path pip op)._originalOperation.parameters =
      combineParams ((pip.getD []).filterMap mcpOf)
        (((op.parameters).getD []).filterMap mcpOf) (bodyParamsOf op.requestBody) := by
    simp [adaptOperation, extract_pair, extractRB_pair]
  have h1' := h1.trans (combineParams_eq _ _ _)
  have h3 : (adaptOperation method path pip op).zodShape =
      setAllKeys [] (zodEntriesOf pip ++ zodEntriesOf op.parameters ++
        bodyEntriesOf op.requestBody) := by
    rw [setAllKeys_append, setAllKeys_append]
    simp [adaptOperation, extract_pair, extractRB_pair]
  refine ⟨h1', ?_, h3, ?_⟩
  · intro p hp
    have hinv := setAllKeys_name_inv
      (((pip.getD []).filterMap mcpOf) ++ (((op.parameters).getD []).filterMap mcpOf) ++
        bodyParamsOf op.requestBody) []
      (fun kv h => absurd h (List.not_mem_nil kv))
    rw [h1', find?_map_snd n _ hinv, getKey_setAllKeys, find?_pairs, hp]
    rfl
  · intro kv hkv
    rw [h3, getKey_setAllKeys, hkv]

/-- Witness input for claim C6: a `limit` query parameter declared at
path-item level as an optional integer. -/
def limitPathLevel : ParameterObject :=
  ⟨"limit", "query", some false, none,
    some (.mk (some "integer") none none .absent .absent .absent none)⟩

/-- Witness input for claim C6: the same `limit` name declared at operation
level as a required string. -/
def limitOpLevel : ParameterObject :=
  ⟨"limit", "query", some true, none,
    some (.mk (some "string") none none .absent .absent .absent none)⟩

/-- Witness input for claim C6: an operation redeclaring `limit`. -/
def limitOperation : OperationObject :=
  ⟨some "op", none, none, some [.param limitOpLevel], none, none⟩

/-- Claim C6 witness: with `limit` declared at both path-item level (optional
integer) and operation level (required string), the produced tool's parameter
list and shape mapping both carry the operation-level definition. -/
theorem C6_parameter_merge_witness :
    ((adaptOperation "get" "/l" (some [.param limitPathLevel])
        limitOperation)._originalOperation.parameters.find?
      fun q => q.name == "limit") = some (mkMCP limitOpLevel) ∧
    getKey (adaptOperation "get" "/l" (some [.param limitPathLevel])
        limitOperation).zodShape "limit" = some (paramZod limitOpLevel) :=
  ⟨(C6_parameter_merge "get" "/l" (some [.param limitPathLevel])
      limitOperation "limit").2.1 (mkMCP limitOpLevel) rfl,
   (C6_parameter_merge "get" "/l" (some [.param limitPathLevel])
      limitOperation "limit").2.2.2 ("limit", paramZod limitOpLevel) rfl⟩

end OpenapiToMcp
